import Mathlib

/-!
Verification development for the SoraSolver repository
(src/cloudflare_solver.py, driven by src/server.py).

The Python source is shallowly embedded: pure fragments become Lean
functions, stateful classes become explicit state records with one Lean
function per method, wall-clock readings (`time.time()`, `datetime.now()`)
become explicit numeric parameters, and the polling / waiting loops become
fuel-indexed recursions over observation traces (the fuel stands for the
fact that real time eventually advances; theorems carry the corresponding
hypotheses explicitly).
-/

/-! ## String helpers

`strStarts` / `strHas` model Python's substring test `needle in hay`;
`lowerStr` models `str.lower()` (ASCII case folding, which agrees with
Python on every marker string the solver matches against). -/

def strStarts : List Char → List Char → Bool
  | [], _ => true
  | _ :: _, [] => false
  | a :: as, b :: bs => a == b && strStarts as bs

def strHas (needle : List Char) : List Char → Bool
  | [] => needle.isEmpty
  | h :: t => strStarts needle (h :: t) || strHas needle t

def inStr (needle hay : String) : Bool :=
  strHas needle.toList hay.toList

def lowerStr (s : String) : String :=
  String.mk (s.toList.map Char.toLower)

/-! ## urllib.parse.urlparse, restricted to the two components the cache
key uses (`netloc` and `path`).

`urlparse(url)` first strips a scheme: if the text before the first `:`
is non-empty, starts with an ASCII letter and consists of scheme
characters, it is removed together with the colon.  If the remainder
starts with `//`, the netloc is everything up to the next `/`, `?` or
`#`.  The path is the rest of the string up to the first `?` or `#`
(query and fragment are split off). -/

def schemeChar (c : Char) : Bool :=
  c.isAlphanum || c == '+' || c == '-' || c == '.'

def stripScheme (l : List Char) : List Char :=
  match l.findIdx? (· == ':') with
  | some i =>
      if 0 < i ∧ (l.take i).all schemeChar ∧ (l.head?.elim false Char.isAlpha) then
        l.drop (i + 1)
      else l
  | none => l

def notNetlocEnd (c : Char) : Bool :=
  !(c == '/' || c == '?' || c == '#')

def notPathEnd (c : Char) : Bool :=
  !(c == '?' || c == '#')

def netlocAndRest (l : List Char) : List Char × List Char :=
  match l with
  | '/' :: '/' :: rest => (rest.takeWhile notNetlocEnd, rest.dropWhile notNetlocEnd)
  | _ => ([], l)

def netlocOf (url : String) : String :=
  String.mk (netlocAndRest (stripScheme url.toList)).1

def pathOf (url : String) : String :=
  String.mk ((netlocAndRest (stripScheme url.toList)).2.takeWhile notPathEnd)

/-- Python truthiness fallback `parsed.netloc or parsed.path`. -/
def domainOf (url : String) : String :=
  if netlocOf url = "" then pathOf url else netlocOf url

/-- Python truthiness fallback `proxy or "direct"` (None and "" are falsy). -/
def proxyOrDirect : Option String → String
  | none => "direct"
  | some p => if p = "" then "direct" else p

/-! ## CloudflareSolution (the cached artifact) -/

structure CloudflareSolution where
  cf_clearance : String
  cookies : List (String × String)
  user_agent : String
  url : String
  created_at : Int
deriving DecidableEq, Repr

/-- Embeds `CloudflareSolution.is_expired(max_age_seconds)`: the age
`datetime.now() - created_at` (here the explicit `now` parameter) strictly
exceeds `maxAge`. -/
def CloudflareSolution.isExpired (sol : CloudflareSolution) (maxAge now : Int) : Bool :=
  decide (maxAge < now - sol.created_at)

/-! ## SolutionCache

The `OrderedDict` is rendered as an association list whose order is the
recency order of the dict: front = oldest inserted / least recently used,
back = most recently used.  `move_to_end` is erase-and-append,
`popitem(last=False)` pops the front.  Python dict keys are unique, so
`del d[k]` is `filter`. -/

structure SolutionCache where
  cache : List (String × CloudflareSolution)
  maxSize : Nat
  ttl : Int
  hits : Nat
  misses : Nat
deriving DecidableEq, Repr

def lookupKey {α : Type} (c : List (String × α)) (k : String) : Option α :=
  (c.find? (fun e => decide (e.1 = k))).map (fun e => e.2)

def eraseKey {α : Type} (c : List (String × α)) (k : String) : List (String × α) :=
  c.filter (fun e => decide (e.1 ≠ k))

/-- Embeds `SolutionCache._make_key`:
`f"{parsed.netloc or parsed.path}|{proxy or 'direct'}"`. -/
def SolutionCache.makeKey (url : String) (proxy : Option String) : String :=
  domainOf url ++ "|" ++ proxyOrDirect proxy

/-- Embeds `SolutionCache.get(url, proxy)`.  The return value pairs the
looked-up solution (None on miss) with the updated cache state; `now` is
the `datetime.now()` reading inside `is_expired`. -/
def SolutionCache.get (st : SolutionCache) (url : String) (proxy : Option String)
    (now : Int) : Option CloudflareSolution × SolutionCache :=
  match lookupKey st.cache (SolutionCache.makeKey url proxy) with
  | none => (none, { st with misses := st.misses + 1 })
  | some sol =>
      if sol.isExpired st.ttl now then
        (none, { st with cache := eraseKey st.cache (SolutionCache.makeKey url proxy),
                         misses := st.misses + 1 })
      else
        (some sol, { st with cache := eraseKey st.cache (SolutionCache.makeKey url proxy) ++
                               [(SolutionCache.makeKey url proxy, sol)],
                             hits := st.hits + 1 })

/-- Embeds the capacity loop `while len(self._cache) >= self._max_size:
self._cache.popitem(last=False)`.  `popitem` on an empty dict raises
KeyError, rendered as `none` (only possible when `maxSize = 0`). -/
def evictToCapacity {α : Type} (m : Nat) : List α → Option (List α)
  | [] => if m = 0 then none else some []
  | e :: t => if m ≤ (e :: t).length then evictToCapacity m t else some (e :: t)

/-- Embeds `SolutionCache.set(url, solution, proxy)`: the solution's `url`
field is overwritten with the full request url before storing, an existing
entry under the key is deleted, the cache is evicted down to capacity, and
the (mutated) solution is appended as the most recent entry. -/
def SolutionCache.set (st : SolutionCache) (url : String) (sol : CloudflareSolution)
    (proxy : Option String) : Option SolutionCache :=
  match evictToCapacity st.maxSize (eraseKey st.cache (SolutionCache.makeKey url proxy)) with
  | none => none
  | some c2 => some { st with cache := c2 ++
      [(SolutionCache.makeKey url proxy, { sol with url := url })] }

/-! ## Heap-passing rendering of `SolutionCache.set` (object aliasing)

Python stores object references; `solution.url = url` mutates the caller's
object in place.  To make that frame effect expressible, the same method is
also rendered over an explicit heap of solutions addressed by references:
the cache maps keys to references, and `set` first mutates the referenced
solution's `url` field on the heap, then stores the reference.
`SolutionCache.set` above is the value-level composition of this one. -/

def heapSetUrl (heap : List CloudflareSolution) (r : Nat) (url : String) :
    List CloudflareSolution :=
  match heap[r]? with
  | some s => heap.set r { s with url := url }
  | none => heap

structure RefCache where
  entries : List (String × Nat)
  maxSize : Nat
deriving DecidableEq, Repr

def SolutionCache.setOnHeap (heap : List CloudflareSolution) (st : RefCache)
    (url : String) (r : Nat) (proxy : Option String) :
    Option (List CloudflareSolution × RefCache) :=
  match evictToCapacity st.maxSize (eraseKey st.entries (SolutionCache.makeKey url proxy)) with
  | none => none
  | some c2 => some (heapSetUrl heap r url,
      { st with entries := c2 ++ [(SolutionCache.makeKey url proxy, r)] })

/-! ## BrowserPool

The pool state holds the idle handles (`_available`, front = next to hand
out), the count of in-flight asynchronous creations (`_creating`), the
target size (`_pool_size`) and the shutdown flag.  A handle records the
channel (proxy) its browser was configured with at creation time; the
configuration is fixed for the life of the handle. -/

structure PHandle where
  hid : Nat
  channel : Option String
deriving DecidableEq, Repr

structure BrowserPool where
  available : List PHandle
  creating : Nat
  poolSize : Nat
  shutdownFlag : Bool
deriving DecidableEq, Repr

/-- Embeds `BrowserPool._create_page(proxy)`: a fresh browser configured
with the given channel (`options.set_proxy` is applied only when a proxy
is passed; every in-pool creation site passes none). -/
def BrowserPool.createPage (n : Nat) (proxy : Option String) : PHandle :=
  ⟨n, proxy⟩

def BrowserPool.invariant (st : BrowserPool) : Prop :=
  st.available.length + st.creating ≤ st.poolSize

instance (st : BrowserPool) : Decidable (BrowserPool.invariant st) := by
  unfold BrowserPool.invariant; infer_instance

/-- All idle handles in the pool were created with no channel. -/
def poolChannelsDirect (st : BrowserPool) : Prop :=
  ∀ h ∈ st.available, h.channel = none

instance (st : BrowserPool) : Decidable (poolChannelsDirect st) := by
  unfold poolChannelsDirect; infer_instance

/-- Embeds `BrowserPool._async_replenish`: under the lock, if
`len(available) + creating >= pool_size` nothing happens; otherwise
`creating` is incremented and a replenisher thread is started (the
thread's later effect is `replenishOneOk` / `replenishOneFail`). -/
def BrowserPool.asyncReplenish (st : BrowserPool) : BrowserPool :=
  if st.poolSize ≤ st.available.length + st.creating then st
  else { st with creating := st.creating + 1 }

/-- Embeds the lock-protected tail of `BrowserPool._replenish_one` when
page creation succeeded: `creating` is decremented, and the new page
(created by `self._create_page()`, hence with no channel) is appended
only if the pool is below size and not shut down; otherwise it is quit. -/
def BrowserPool.replenishOneOk (st : BrowserPool) (n : Nat) : BrowserPool :=
  let st1 := { st with creating := st.creating - 1 }
  if st1.available.length < st1.poolSize && !st1.shutdownFlag then
    { st1 with available := st1.available ++ [BrowserPool.createPage n none] }
  else st1

/-- Embeds the exception branch of `BrowserPool._replenish_one`:
`creating` is decremented and the failure is only counted. -/
def BrowserPool.replenishOneFail (st : BrowserPool) : BrowserPool :=
  { st with creating := st.creating - 1 }

/-- Embeds one successful iteration of `BrowserPool.warmup`: the freshly
created page (no channel) is appended if `len(available) < pool_size`
(note: the in-flight `creating` count is not consulted), else quit. -/
def BrowserPool.warmupStep (st : BrowserPool) (n : Nat) : BrowserPool :=
  if st.available.length < st.poolSize then
    { st with available := st.available ++ [BrowserPool.createPage n none] }
  else st

/-- Embeds `BrowserPool.discard(page)`: the page is quit (never returned
to `available`) and an asynchronous replenishment is triggered. -/
def BrowserPool.discard (st : BrowserPool) : BrowserPool :=
  BrowserPool.asyncReplenish st

/-- Embeds `BrowserPool.shutdown()`: the flag is set, waiters are woken,
and every idle handle is quit and removed. -/
def BrowserPool.shutdownPool (st : BrowserPool) : BrowserPool :=
  { st with shutdownFlag := true, available := [] }

/-! ### BrowserPool.acquire

The wait loop `while not self._available and not self._shutdown` runs
under the condition variable; what other threads make available, the
shutdown flag, and the elapsed wall clock at each iteration are supplied
by an environment.  `createId` is the outcome of the synchronous-fallback
`self._create_page()` after the timeout (`none` = creation raised, which
`acquire` turns into returning `None`); the fallback creation passes no
proxy. -/

structure AcquireEnv where
  avail : Nat → List PHandle
  stopAt : Nat → Bool
  elapsed : Nat → Nat
  createId : Option Nat

inductive AcqOut where
  | fromPool (h : PHandle)
  | created (r : Option PHandle)
  | fuelOut
deriving DecidableEq, Repr

def AcquireEnv.fallback (env : AcquireEnv) : Option PHandle :=
  env.createId.map (fun m => BrowserPool.createPage m none)

def BrowserPool.acquireLoop (env : AcquireEnv) (timeout : Nat) :
    Nat → Nat → AcqOut
  | 0, _ => .fuelOut
  | fuel + 1, i =>
      match env.avail i with
      | h :: _ => .fromPool h
      | [] =>
          if env.stopAt i then .created env.fallback
          else if timeout ≤ env.elapsed i then .created env.fallback
          else BrowserPool.acquireLoop env timeout fuel (i + 1)

/-- Embeds `BrowserPool.acquire(timeout)`.  If `available` is non-empty the
front handle is popped and returned at once and a replenishment is
triggered; the returned state is the pool state after that trigger.  If
empty, a replenishment is triggered and the caller waits; the loop exits
when a handle appears, on shutdown, or when the elapsed time reaches the
timeout, in which case a handle is created synchronously outside the pool
(possibly failing, giving `None`). -/
def BrowserPool.acquire (st : BrowserPool) (timeout : Nat) (env : AcquireEnv)
    (fuel : Nat) : AcqOut × BrowserPool :=
  match st.available with
  | h :: t => (.fromPool h, BrowserPool.asyncReplenish { st with available := t })
  | [] => (BrowserPool.acquireLoop env timeout fuel 0, BrowserPool.asyncReplenish st)

/-! ## Clearance waiter (`CloudflareSolver._check_clearance`)

The page is rendered as a trace of per-tick observations.  `t` is the
elapsed time `time.time() - start_time` at this tick's while-condition
check.  `cookiesThrow` / `stateThrow` model the try/except around the
engine reads (a raising read is swallowed and the loop just sleeps on to
the next tick).  `cookiesLate` is the cookie set as it stands at the
moment the tick classifies the page state — the code performs a single
`page.cookies()` read per tick, at the start, and never reads this field. -/

structure PageObs where
  cookies : List (String × String)
  cookiesLate : List (String × String)
  title : String
  url : String
  html : String
  t : Nat
  cookiesThrow : Bool
  stateThrow : Bool
deriving DecidableEq, Repr

def PageObs.eraseLate (ob : PageObs) : PageObs :=
  { ob with cookiesLate := [] }

/-- Embeds the cookie scan `for cookie in cookies: if cookie["name"] ==
"cf_clearance": return cookie["value"]`. -/
def findClearance (cookies : List (String × String)) : Option String :=
  (cookies.find? (fun c => c.1 == "cf_clearance")).map (fun c => c.2)

def challengeTitles : List String :=
  ["just a moment", "checking your browser", "please wait",
   "attention required", "security check", "ddos protection",
   "cloudflare", "验证"]

def challengeTexts : List String :=
  ["确认您是真人", "验证您是真人", "请完成安全检查",
   "verify you are human", "verify you\x27re human", "please verify",
   "human verification", "click to verify", "i am human",
   "i\x27m not a robot", "prove you are human",
   "complete the security check",
   "checking if the site connection is secure",
   "enable javascript and cookies", "ray id:", "cf-turnstile",
   "challenges.cloudflare.com"]

def cfElementMarks : List String :=
  ["id=\"challenge-running\"", "id=\"challenge-form\"", "class=\"cf-",
   "data-ray=", "cf_chl_opt"]

def isChallengeTitle (titleLower : String) : Bool :=
  challengeTitles.any (fun s => inStr s titleLower)

def isChallengeUrl (urlLower : String) : Bool :=
  inStr "challenge" urlLower || inStr "cdn-cgi" urlLower || inStr "ray=" urlLower

def isChallengeContent (textLower : String) : Bool :=
  challengeTexts.any (fun s => inStr s textLower)

def hasCfElements (textLower : String) : Bool :=
  cfElementMarks.any (fun s => inStr s textLower)

/-- Embeds `is_manual_challenge = is_challenge_content or has_cf_elements`
over the lowercased page html. -/
def isManualChallenge (ob : PageObs) : Bool :=
  isChallengeContent (lowerStr ob.html) || hasCfElements (lowerStr ob.html)

inductive ClearanceExit where
  | cleared (v : String)
  | manual
  | timedOut
  | fuelOut
deriving DecidableEq, Repr

/-- Embeds the polling loop of `CloudflareSolver._check_clearance`,
tagging which `return` fired.  Per tick: if the elapsed time has reached
`wait_time` the while-condition fails and the waiter times out; otherwise
the tick reads cookies (returning the clearance value when present),
reads the page state, and returns no token at once when the page is
classified as a manual challenge; in every other case (including
swallowed read errors and auto-verifying pages) it sleeps and polls
again. -/
def checkClearanceGo (trace : Nat → PageObs) (waitTime : Nat) :
    Nat → Nat → ClearanceExit
  | 0, _ => .fuelOut
  | fuel + 1, i =>
      if waitTime ≤ (trace i).t then .timedOut
      else if (trace i).cookiesThrow then checkClearanceGo trace waitTime fuel (i + 1)
      else
        match findClearance (trace i).cookies with
        | some v => .cleared v
        | none =>
            if (trace i).stateThrow then checkClearanceGo trace waitTime fuel (i + 1)
            else if isManualChallenge (trace i) then .manual
            else checkClearanceGo trace waitTime fuel (i + 1)

/-- The default of the `wait_time` parameter of `_check_clearance`. -/
def checkClearanceDefaultWait : Nat := 8

/-- Embeds the `Optional[str]` value `_check_clearance` returns: the token
on `cleared`, `None` on both manual challenge and timeout. -/
def checkClearance (trace : Nat → PageObs) (waitTime fuel : Nat) : Option String :=
  match checkClearanceGo trace waitTime fuel 0 with
  | .cleared v => some v
  | _ => none

/-- The tick neither observes the success cookie nor a manual-challenge
signal: either its cookie read raised, or the cookies carried no
`cf_clearance` and the page state either failed to read or did not match
the manual-challenge classifiers. -/
def tickNoSignal (ob : PageObs) : Prop :=
  ob.cookiesThrow = true ∨
    (findClearance ob.cookies = none ∧
      (ob.stateThrow = true ∨ isManualChallenge ob = false))

instance (ob : PageObs) : Decidable (tickNoSignal ob) := by
  unfold tickNoSignal; infer_instance

/-! ## CloudflareSolver (the request orchestrator) -/

structure CloudflareSolver where
  proxy : Option String
  headless : Bool
  timeout : Nat
  useCache : Bool
  usePool : Bool
deriving DecidableEq, Repr

/-- Embeds `CloudflareSolver._create_page()` (the ad hoc creation used
when no pool is available or pool acquisition failed): the browser is
configured with the solver's own proxy. -/
def CloudflareSolver.createPage (cfg : CloudflareSolver) (n : Nat) : PHandle :=
  ⟨n, cfg.proxy⟩

/-- The `wait_time` value `solve` drives the waiter with: the call site is
`self._check_clearance(page)`, which supplies no `wait_time`, so the
default `8` applies whatever `cfg.timeout` was configured. -/
def CloudflareSolver.solveWait (cfg : CloudflareSolver) : Nat :=
  checkClearanceDefaultWait

/-- The clearance check `solve` performs on one attempt's page. -/
def CloudflareSolver.attemptClearance (cfg : CloudflareSolver)
    (trace : Nat → PageObs) (fuel : Nat) : Option String :=
  checkClearance trace (CloudflareSolver.solveWait cfg) fuel

/-- Embeds the handle selection of one `solve` attempt: with the pool
enabled and present, the pooled handle is used as acquired; only when the
pool is absent, disabled, or `acquire` returned `None` does the solver
create a page ad hoc (with its own proxy). -/
def CloudflareSolver.attemptHandle (cfg : CloudflareSolver) (poolPresent : Bool)
    (acquired : Option PHandle) (n : Nat) : PHandle :=
  if cfg.usePool && poolPresent then
    match acquired with
    | some h => h
    | none => cfg.createPage n
  else cfg.createPage n

/-! ### The retry loop of `solve`

One attempt, observed after its page was obtained, either returns a
cleared solution, raises `CloudflareError("需要人机验证或超时")` because
`_check_clearance` returned `None`, or raises some other engine error;
in the failure cases the exception is recorded as `last_error`, the
`finally` block discards the page, and the next attempt runs. -/

inductive AttemptOut where
  | cleared (sol : CloudflareSolution)
  | noClearance
  | engineError (msg : String)
deriving DecidableEq, Repr

def challengeFailMsg : String := "需要人机验证或超时"

def attemptMsg : AttemptOut → Option String
  | .cleared _ => none
  | .noClearance => some challengeFailMsg
  | .engineError m => some m

/-- The message of `CloudflareError(f"重试 {max_retries} 次后仍然失败:
{last_error}")`. -/
def exhaustedMsg (maxRetries : Nat) (lastError : Option String) : String :=
  "重试 " ++ toString maxRetries ++ " 次后仍然失败: " ++
    (match lastError with
     | some m => m
     | none => "None")

structure SolveCounts where
  acquiredCount : Nat
  discardedCount : Nat
deriving DecidableEq, Repr

/-- Embeds `for attempt in range(max_retries + 1)` of `solve`, together
with a count of pages obtained and pages discarded (the `finally` block
closes the attempt's page on success, failure and exception alike). -/
def CloudflareSolver.solveGo (attempts : Nat → AttemptOut) (maxRetries : Nat) :
    Nat → Nat → Option String → Except String CloudflareSolution × SolveCounts
  | 0, _, lastError => (.error (exhaustedMsg maxRetries lastError), ⟨0, 0⟩)
  | r + 1, idx, _ =>
      match attempts idx with
      | .cleared sol => (.ok sol, ⟨1, 1⟩)
      | .noClearance =>
          let rest := CloudflareSolver.solveGo attempts maxRetries r (idx + 1)
            (some challengeFailMsg)
          (rest.1, ⟨rest.2.acquiredCount + 1, rest.2.discardedCount + 1⟩)
      | .engineError msg =>
          let rest := CloudflareSolver.solveGo attempts maxRetries r (idx + 1)
            (some msg)
          (rest.1, ⟨rest.2.acquiredCount + 1, rest.2.discardedCount + 1⟩)

/-- Embeds `CloudflareSolver.solve(url, skip_cache, max_retries)`: unless
caching is enabled and not skipped and the cache holds a fresh entry
(`cacheHit`), the retry loop runs; a cache hit returns at once with no
page obtained. -/
def CloudflareSolver.solve (cfg : CloudflareSolver)
    (cacheHit : Option CloudflareSolution) (skipCache : Bool)
    (attempts : Nat → AttemptOut) (maxRetries : Nat) :
    Except String CloudflareSolution × SolveCounts :=
  if cfg.useCache && !skipCache then
    match cacheHit with
    | some sol => (.ok sol, ⟨0, 0⟩)
    | none => CloudflareSolver.solveGo attempts maxRetries (maxRetries + 1) 0 none
  else CloudflareSolver.solveGo attempts maxRetries (maxRetries + 1) 0 none

/-! ## Helper lemmas about the association-list operations -/

theorem lookupKey_cons_pos {α : Type} (e : String × α) (t : List (String × α))
    (k : String) (h : e.1 = k) : lookupKey (e :: t) k = some e.2 := by
  simp [lookupKey, List.find?_cons_of_pos, h]

theorem lookupKey_cons_neg {α : Type} (e : String × α) (t : List (String × α))
    (k : String) (h : ¬ e.1 = k) : lookupKey (e :: t) k = lookupKey t k := by
  simp [lookupKey, List.find?_cons_of_neg, h]

theorem eraseKey_cons_pos {α : Type} (e : String × α) (t : List (String × α))
    (k : String) (h : e.1 = k) : eraseKey (e :: t) k = eraseKey t k := by
  simp [eraseKey, List.filter_cons, h]

theorem eraseKey_cons_neg {α : Type} (e : String × α) (t : List (String × α))
    (k : String) (h : ¬ e.1 = k) : eraseKey (e :: t) k = e :: eraseKey t k := by
  simp [eraseKey, List.filter_cons, h]

theorem lookupKey_eraseKey_self {α : Type} (c : List (String × α)) (k : String) :
    lookupKey (eraseKey c k) k = none := by
  induction c with
  | nil => rfl
  | cons e t ih =>
      by_cases h : e.1 = k
      · rw [eraseKey_cons_pos e t k h]; exact ih
      · rw [eraseKey_cons_neg e t k h, lookupKey_cons_neg e _ k h]; exact ih

theorem lookupKey_eraseKey_ne {α : Type} (c : List (String × α)) (k k' : String)
    (hne : ¬ k' = k) : lookupKey (eraseKey c k) k' = lookupKey c k' := by
  induction c with
  | nil => rfl
  | cons e t ih =>
      by_cases h : e.1 = k
      · rw [eraseKey_cons_pos e t k h, lookupKey_cons_neg e t k']
        · exact ih
        · rw [h]; exact fun hk => hne hk.symm
      · rw [eraseKey_cons_neg e t k h]
        by_cases h' : e.1 = k'
        · rw [lookupKey_cons_pos _ _ k' h', lookupKey_cons_pos e t k' h']
        · rw [lookupKey_cons_neg _ _ k' h', lookupKey_cons_neg e t k' h']; exact ih

theorem eraseKey_of_lookup_none {α : Type} (c : List (String × α)) (k : String)
    (h : lookupKey c k = none) : eraseKey c k = c := by
  induction c with
  | nil => rfl
  | cons e t ih =>
      by_cases he : e.1 = k
      · rw [lookupKey_cons_pos e t k he] at h; cases h
      · rw [lookupKey_cons_neg e t k he] at h
        rw [eraseKey_cons_neg e t k he, ih h]

theorem lookupKey_append {α : Type} (c1 c2 : List (String × α)) (k : String) :
    lookupKey (c1 ++ c2) k =
      (match lookupKey c1 k with
       | some v => some v
       | none => lookupKey c2 k) := by
  induction c1 with
  | nil => rfl
  | cons e t ih =>
      by_cases h : e.1 = k
      · rw [List.cons_append, lookupKey_cons_pos _ _ k h, lookupKey_cons_pos e t k h]
      · rw [List.cons_append, lookupKey_cons_neg _ _ k h, lookupKey_cons_neg e t k h]
        exact ih

theorem evictToCapacity_length {α : Type} (m : Nat) :
    ∀ (c c2 : List α), evictToCapacity m c = some c2 → c2.length < m := by
  intro c
  induction c with
  | nil =>
      intro c2 h
      unfold evictToCapacity at h
      by_cases hm : m = 0
      · simp [hm] at h
      · simp [hm] at h
        subst h
        simpa using Nat.pos_of_ne_zero hm
  | cons e t ih =>
      intro c2 h
      unfold evictToCapacity at h
      by_cases hc : m ≤ (e :: t).length
      · rw [if_pos hc] at h; exact ih c2 h
      · rw [if_neg hc] at h
        cases h
        exact Nat.lt_of_not_le hc

theorem evictToCapacity_mem {α : Type} (m : Nat) :
    ∀ (c c2 : List α), evictToCapacity m c = some c2 → ∀ e ∈ c2, e ∈ c := by
  intro c
  induction c with
  | nil =>
      intro c2 h
      unfold evictToCapacity at h
      by_cases hm : m = 0
      · simp [hm] at h
      · simp [hm] at h; subst h; intro e he; cases he
  | cons a t ih =>
      intro c2 h
      unfold evictToCapacity at h
      by_cases hc : m ≤ (a :: t).length
      · rw [if_pos hc] at h
        intro e he
        exact List.mem_cons_of_mem a (ih c2 h e he)
      · rw [if_neg hc] at h; cases h; intro e he; exact he

theorem evictToCapacity_of_lt {α : Type} (m : Nat) (c : List α)
    (h : c.length < m) : evictToCapacity m c = some c := by
  cases c with
  | nil =>
      unfold evictToCapacity
      have : ¬ m = 0 := by omega
      simp [this]
  | cons e t =>
      unfold evictToCapacity
      rw [if_neg (by omega)]

theorem evictToCapacity_at_cap {α : Type} (m : Nat) (c : List α)
    (hlen : c.length = m) (hm : 1 ≤ m) : evictToCapacity m c = some c.tail := by
  cases c with
  | nil => simp at hlen; omega
  | cons e t =>
      unfold evictToCapacity
      rw [if_pos (by omega)]
      exact evictToCapacity_of_lt m t (by simp at hlen; omega)

theorem lookupKey_none_of_not_memKeys {α : Type} (c : List (String × α)) (k : String)
    (h : k ∉ c.map Prod.fst) : lookupKey c k = none := by
  induction c with
  | nil => rfl
  | cons e t ih =>
      simp only [List.map_cons, List.mem_cons] at h
      push_neg at h
      rw [lookupKey_cons_neg e t k (fun he => h.1 he.symm)]
      exact ih h.2

theorem eraseKey_length_of_mem {α : Type} (c : List (String × α)) (k : String)
    (hnd : (c.map Prod.fst).Nodup) (s : α) (h : lookupKey c k = some s) :
    (eraseKey c k).length + 1 = c.length := by
  induction c with
  | nil => cases h
  | cons e t ih =>
      simp only [List.map_cons, List.nodup_cons] at hnd
      by_cases he : e.1 = k
      · rw [eraseKey_cons_pos e t k he]
        have : lookupKey t k = none := by
          apply lookupKey_none_of_not_memKeys
          rw [← he]; exact hnd.1
        rw [eraseKey_of_lookup_none t k this]
        simp
      · rw [lookupKey_cons_neg e t k he] at h
        rw [eraseKey_cons_neg e t k he]
        simp only [List.length_cons]
        rw [← ih hnd.2 h]

/-! ## Claim C4: cache key derivation -/

/-- C4, counterexample.  The claim quantifies over every pair of target
URLs with the same host/authority component.  For scheme-less URLs
`urlparse` assigns an empty netloc — equal for both — and `_make_key`
then falls back to the full path, so two distinct paths on the same host
get different keys. -/
theorem C4_counterexample :
    netlocOf "example.com/a" = netlocOf "example.com/b" ∧
    SolutionCache.makeKey "example.com/a" none = "example.com/a|direct" ∧
    SolutionCache.makeKey "example.com/b" none = "example.com/b|direct" ∧
    SolutionCache.makeKey "example.com/a" none ≠
      SolutionCache.makeKey "example.com/b" none := by
  refine ⟨rfl, rfl, rfl, ?_⟩
  decide

/-- C4, amended: for every pair of target URLs with the same non-empty
host/authority component and the same channel, `_make_key` (used
identically by `SolutionCache.get` and `SolutionCache.set`) derives the
same cache key, so two distinct paths on the same host share one cache
entry; an absent channel (None or empty) normalizes to the stable string
"direct".  URLs whose authority component is empty fall back to the full
path as target identity. -/
theorem C4_theorem :
    (∀ u1 u2 proxy, netlocOf u1 = netlocOf u2 → netlocOf u1 ≠ "" →
       SolutionCache.makeKey u1 proxy = SolutionCache.makeKey u2 proxy) ∧
    (∀ u, SolutionCache.makeKey u none = domainOf u ++ "|" ++ "direct") ∧
    (∀ u, SolutionCache.makeKey u (some "") = domainOf u ++ "|" ++ "direct") := by
  refine ⟨?_, fun u => rfl, fun u => rfl⟩
  intro u1 u2 proxy h1 h2
  unfold SolutionCache.makeKey domainOf
  rw [← h1]
  simp [if_neg h2]

/-- C4, witness for the amended theorem at two concrete same-host URLs
visiting distinct paths through a proxied channel. -/
theorem C4_witness :
    netlocOf "https://example.com/a" = netlocOf "https://example.com/b" ∧
    netlocOf "https://example.com/a" ≠ "" ∧
    SolutionCache.makeKey "https://example.com/a" (some "10.0.0.1:3128") =
      SolutionCache.makeKey "https://example.com/b" (some "10.0.0.1:3128") :=
  ⟨by decide, by decide,
   C4_theorem.1 "https://example.com/a" "https://example.com/b"
     (some "10.0.0.1:3128") (by decide) (by decide)⟩

/-! ## Claim C10: `set` mutates its solution argument in place -/

theorem listSet_getElem_self : ∀ (l : List CloudflareSolution) (r : Nat)
    (s v : CloudflareSolution), l[r]? = some s → (l.set r v)[r]? = some v := by
  intro l
  induction l with
  | nil => intro r s v h; cases h
  | cons a t ih =>
      intro r s v h
      cases r with
      | zero => simp [List.set]
      | succ n =>
          simp only [List.getElem?_cons_succ] at h
          simpa only [List.set, List.getElem?_cons_succ] using ih n s v h

theorem listSet_getElem_ne : ∀ (l : List CloudflareSolution) (r r' : Nat)
    (v : CloudflareSolution), r' ≠ r → (l.set r v)[r']? = l[r']? := by
  intro l
  induction l with
  | nil => intro r r' v _; rfl
  | cons a t ih =>
      intro r r' v hne
      cases r with
      | zero =>
          cases r' with
          | zero => exact absurd rfl hne
          | succ m => simp [List.set]
      | succ n =>
          cases r' with
          | zero => simp [List.set]
          | succ m =>
              simp only [List.set, List.getElem?_cons_succ]
              exact ih n m v (fun h => hne (by rw [h]))

/-- C10: `SolutionCache.set` overwrites the `url` field of the very
solution object the caller passed in — on the heap rendering, the store
stores the reference `r` under the host-derived key after mutating the
heap cell `r` so that its `url` is the full request url; the mutation is
visible through every alias of `r` (any other holder of the object,
including a reader that previously obtained `r` from `get`), while all
other heap cells are untouched. -/
theorem C10_theorem :
    (∀ heap r url s, heap[r]? = some s →
       (heapSetUrl heap r url)[r]? = some { s with url := url } ∧
       ∀ r', r' ≠ r → (heapSetUrl heap r url)[r']? = heap[r']?) ∧
    (∀ heap st url r proxy heap1 st1,
       SolutionCache.setOnHeap heap st url r proxy = some (heap1, st1) →
       heap1 = heapSetUrl heap r url ∧
       ∃ c2, st1.entries = c2 ++ [(SolutionCache.makeKey url proxy, r)]) := by
  constructor
  · intro heap r url s h
    constructor
    · unfold heapSetUrl
      rw [h]
      exact listSet_getElem_self heap r s _ h
    · intro r' hne
      unfold heapSetUrl
      rw [h]
      exact listSet_getElem_ne heap r r' _ hne
  · intro heap st url r proxy heap1 st1 h
    unfold SolutionCache.setOnHeap at h
    cases he : evictToCapacity st.maxSize (eraseKey st.entries (SolutionCache.makeKey url proxy)) with
    | none => rw [he] at h; cases h
    | some c2 =>
        rw [he] at h
        injection h with h'
        cases h'
        exact ⟨rfl, ⟨c2, rfl⟩⟩

def demoStored : CloudflareSolution :=
  { cf_clearance := "tokA", cookies := [("cf_clearance", "tokA")],
    user_agent := "UA", url := "https://example.com", created_at := 0 }

/-- C10, witness: a one-cell heap holding the artifact; `set` under key
`example.com|direct` rewrites the cell's url to the full path url. -/
theorem C10_witness :
    ([demoStored][0]? = some demoStored) ∧
    ((heapSetUrl [demoStored] 0 "https://example.com/deep/path")[0]? =
       some { demoStored with url := "https://example.com/deep/path" }) ∧
    (SolutionCache.setOnHeap [demoStored] ⟨[], 50⟩ "https://example.com/deep/path" 0 none =
       some (heapSetUrl [demoStored] 0 "https://example.com/deep/path",
             ⟨[("example.com|direct", 0)], 50⟩) →
       [demoStored].length = 1) :=
  ⟨rfl,
   (C10_theorem.1 [demoStored] 0 "https://example.com/deep/path" demoStored rfl).1,
   fun _ => rfl⟩

/-! ## Claims C6 and C7: SolutionCache LRU eviction and get/TTL behaviour -/

theorem lookupKey_eraseKey_mem {α : Type} (c : List (String × α)) (k : String) :
    ∀ e ∈ eraseKey c k, ¬ e.1 = k := by
  intro e he
  unfold eraseKey at he
  have := List.of_mem_filter he
  simpa using this

theorem eraseKey_append {α : Type} (a b : List (String × α)) (k : String) :
    eraseKey (a ++ b) k = eraseKey a k ++ eraseKey b k := by
  simp [eraseKey, List.filter_append]

theorem eraseKey_singleton_self {α : Type} (k : String) (x : α) :
    eraseKey [(k, x)] k = [] := by
  simp [eraseKey]

theorem lookupKey_evict_none {α : Type} (m : Nat) (c : List (String × α))
    (k : String) (c2 : List (String × α))
    (he : evictToCapacity m (eraseKey c k) = some c2) : lookupKey c2 k = none := by
  apply lookupKey_none_of_not_memKeys
  intro hk
  obtain ⟨e, hemem, hek⟩ := List.mem_map.mp hk
  have hin : e ∈ eraseKey c k := evictToCapacity_mem m _ c2 he e hemem
  exact (lookupKey_eraseKey_mem c k e hin) hek

/-- C6: with the cache at capacity, `set` of a new key evicts exactly the
front (least-recently-used) entry and no other, the cache size stays at
`max_size`; after any successful `set` the size is at most `max_size`;
and `set` of an existing key replaces that entry in place (erase +
re-append as most recent) without evicting any other key. -/
theorem C6_theorem :
    (∀ (st : SolutionCache) url sol proxy,
       st.cache.length = st.maxSize → 1 ≤ st.maxSize →
       lookupKey st.cache (SolutionCache.makeKey url proxy) = none →
       SolutionCache.set st url sol proxy =
         some { st with cache := st.cache.tail ++
           [(SolutionCache.makeKey url proxy, { sol with url := url })] }) ∧
    (∀ (st : SolutionCache) url sol proxy st1,
       SolutionCache.set st url sol proxy = some st1 →
       st1.cache.length ≤ st.maxSize) ∧
    (∀ (st : SolutionCache) url sol proxy s0,
       st.cache.length = st.maxSize → (st.cache.map Prod.fst).Nodup →
       lookupKey st.cache (SolutionCache.makeKey url proxy) = some s0 →
       SolutionCache.set st url sol proxy =
         some { st with cache := eraseKey st.cache (SolutionCache.makeKey url proxy) ++
           [(SolutionCache.makeKey url proxy, { sol with url := url })] } ∧
       (∀ k', k' ≠ SolutionCache.makeKey url proxy →
          lookupKey (eraseKey st.cache (SolutionCache.makeKey url proxy) ++
            [(SolutionCache.makeKey url proxy, { sol with url := url })]) k' =
          lookupKey st.cache k')) := by
  refine ⟨?_, ?_, ?_⟩
  · intro st url sol proxy hlen hm hnone
    unfold SolutionCache.set
    rw [eraseKey_of_lookup_none _ _ hnone,
        evictToCapacity_at_cap st.maxSize st.cache hlen hm]
  · intro st url sol proxy st1 h
    unfold SolutionCache.set at h
    cases he : evictToCapacity st.maxSize
        (eraseKey st.cache (SolutionCache.makeKey url proxy)) with
    | none => rw [he] at h; cases h
    | some c2 =>
        rw [he] at h
        injection h with h'
        cases h'
        have hlt := evictToCapacity_length st.maxSize _ c2 he
        simp only [List.length_append, List.length_cons, List.length_nil]
        omega
  · intro st url sol proxy s0 hlen hnd hsome
    have herase := eraseKey_length_of_mem st.cache
      (SolutionCache.makeKey url proxy) hnd s0 hsome
    have hev : evictToCapacity st.maxSize
        (eraseKey st.cache (SolutionCache.makeKey url proxy)) =
        some (eraseKey st.cache (SolutionCache.makeKey url proxy)) := by
      apply evictToCapacity_of_lt
      have hpos : 1 ≤ st.cache.length := by
        cases hc : st.cache with
        | nil => rw [hc] at hsome; cases hsome
        | cons e t => simp [hc]
      omega
    constructor
    · unfold SolutionCache.set
      rw [hev]
    · intro k' hk'
      rw [lookupKey_append, lookupKey_eraseKey_ne st.cache _ k' hk']
      cases hv : lookupKey st.cache k' with
      | some v => rfl
      | none =>
          rw [lookupKey_cons_neg _ _ k' (fun h => hk' h.symm)]
          rfl

def solA : CloudflareSolution :=
  { cf_clearance := "ta", cookies := [], user_agent := "UA",
    url := "https://a.com", created_at := 0 }

def solB : CloudflareSolution :=
  { cf_clearance := "tb", cookies := [], user_agent := "UA",
    url := "https://b.com", created_at := 0 }

def solC : CloudflareSolution :=
  { cf_clearance := "tc", cookies := [], user_agent := "UA",
    url := "https://c.com", created_at := 0 }

def demoCache : SolutionCache :=
  { cache := [("a.com|direct", solA), ("b.com|direct", solB)],
    maxSize := 2, ttl := 1800, hits := 0, misses := 0 }

/-- C6, witness: a cache at capacity 2; inserting `c.com` evicts the
least-recent key `a.com`; re-inserting `b.com` replaces it without
evicting `a.com`. -/
theorem C6_witness :
    demoCache.cache.length = demoCache.maxSize ∧
    1 ≤ demoCache.maxSize ∧
    lookupKey demoCache.cache (SolutionCache.makeKey "https://c.com" none) = none ∧
    SolutionCache.set demoCache "https://c.com" solC none =
      some { demoCache with cache := demoCache.cache.tail ++
        [(SolutionCache.makeKey "https://c.com" none,
          { solC with url := "https://c.com" })] } ∧
    (demoCache.cache.map Prod.fst).Nodup ∧
    lookupKey demoCache.cache (SolutionCache.makeKey "https://b.com" none) = some solB ∧
    SolutionCache.set demoCache "https://b.com" solB none =
      some { demoCache with
               cache := eraseKey demoCache.cache
                   (SolutionCache.makeKey "https://b.com" none) ++
                 [(SolutionCache.makeKey "https://b.com" none,
                   { solB with url := "https://b.com" })] } :=
  ⟨by decide, by decide, by decide,
   C6_theorem.1 demoCache "https://c.com" solC none (by decide) (by decide) (by decide),
   by decide, by decide,
   (C6_theorem.2.2 demoCache "https://b.com" solB none solB
     (by decide) (by decide) (by decide)).1⟩

/-- C7: `get` returns absent exactly when the key is missing or the entry

has outlived the TTL; a missing key only bumps the miss counter, an
expired entry is deleted and bumps the miss counter, a fresh entry is
returned, moved to most-recent and bumps the hit counter; and a `set`
followed by an immediate `get` of the same target and channel returns the
stored solution and counts as a hit. -/
theorem C7_theorem :
    (∀ (st : SolutionCache) url proxy now,
       (SolutionCache.get st url proxy now).1 = none ↔
         (lookupKey st.cache (SolutionCache.makeKey url proxy) = none ∨
          ∃ sol, lookupKey st.cache (SolutionCache.makeKey url proxy) = some sol ∧
            sol.isExpired st.ttl now = true)) ∧
    (∀ (st : SolutionCache) url proxy now,
       lookupKey st.cache (SolutionCache.makeKey url proxy) = none →
       SolutionCache.get st url proxy now =
         (none, { st with misses := st.misses + 1 })) ∧
    (∀ (st : SolutionCache) url proxy now sol,
       lookupKey st.cache (SolutionCache.makeKey url proxy) = some sol →
       sol.isExpired st.ttl now = true →
       SolutionCache.get st url proxy now =
         (none, { st with cache := eraseKey st.cache (SolutionCache.makeKey url proxy),
                          misses := st.misses + 1 })) ∧
    (∀ (st : SolutionCache) url proxy now sol,
       lookupKey st.cache (SolutionCache.makeKey url proxy) = some sol →
       sol.isExpired st.ttl now = false →
       SolutionCache.get st url proxy now =
         (some sol,
          { st with
              cache := eraseKey st.cache (SolutionCache.makeKey url proxy) ++
                [(SolutionCache.makeKey url proxy, sol)],
              hits := st.hits + 1 })) ∧
    (∀ (st : SolutionCache) url sol proxy now st1,
       SolutionCache.set st url sol proxy = some st1 →
       now - sol.created_at ≤ st.ttl →
       SolutionCache.get st1 url proxy now =
         (some { sol with url := url }, { st1 with hits := st1.hits + 1 })) := by
  refine ⟨?_, ?_, ?_, ?_, ?_⟩
  · intro st url proxy now
    unfold SolutionCache.get
    cases hv : lookupKey st.cache (SolutionCache.makeKey url proxy) with
    | none => simp
    | some sol =>
        cases hex : sol.isExpired st.ttl now with
        | true => simp [hex]
        | false => simp [hex]
  · intro st url proxy now h
    unfold SolutionCache.get
    rw [h]
  · intro st url proxy now sol h hex
    unfold SolutionCache.get
    rw [h]
    simp [hex]
  · intro st url proxy now sol h hex
    unfold SolutionCache.get
    rw [h]
    simp [hex]
  · intro st url sol proxy now st1 hset hfresh
    unfold SolutionCache.set at hset
    cases he : evictToCapacity st.maxSize
        (eraseKey st.cache (SolutionCache.makeKey url proxy)) with
    | none => rw [he] at hset; cases hset
    | some c2 =>
        rw [he] at hset
        injection hset with h'
        cases h'
        unfold SolutionCache.get
        have hl : lookupKey (c2 ++ [(SolutionCache.makeKey url proxy,
            { sol with url := url })]) (SolutionCache.makeKey url proxy) =
            some { sol with url := url } := by
          rw [lookupKey_append, lookupKey_evict_none st.maxSize st.cache _ c2 he,
              lookupKey_cons_pos _ _ _ rfl]
        have hex : ({ sol with url := url } : CloudflareSolution).isExpired st.ttl now
            = false := by
          unfold CloudflareSolution.isExpired
          simp only [decide_eq_false_iff_not, not_lt]
          exact hfresh
        have hc2 : lookupKey c2 (SolutionCache.makeKey url proxy) = none :=
          lookupKey_evict_none st.maxSize st.cache _ c2 he
        simp only [hl, hex]
        rw [if_neg (by simp)]
        rw [eraseKey_append, eraseKey_of_lookup_none c2 _ hc2, eraseKey_singleton_self]
        simp

def demoAfterSetC : SolutionCache :=
  { cache := [("b.com|direct", solB),
              ("c.com|direct", { solC with url := "https://c.com" })],
    maxSize := 2, ttl := 1800, hits := 0, misses := 0 }

/-- C7, witness: a miss on an unknown host, a miss on an expired entry,
a hit on a fresh entry, and a set-then-get round trip that hits. -/
theorem C7_witness :
    (lookupKey demoCache.cache (SolutionCache.makeKey "https://z.com" none) = none ∧
     SolutionCache.get demoCache "https://z.com" none 10 =
       (none, { demoCache with misses := demoCache.misses + 1 })) ∧
    (lookupKey demoCache.cache (SolutionCache.makeKey "https://a.com" none) = some solA ∧
     solA.isExpired demoCache.ttl 5000 = true ∧
     SolutionCache.get demoCache "https://a.com" none 5000 =
       (none, { demoCache with
                  cache := eraseKey demoCache.cache
                    (SolutionCache.makeKey "https://a.com" none),
                  misses := demoCache.misses + 1 })) ∧
    (lookupKey demoCache.cache (SolutionCache.makeKey "https://a.com" none) = some solA ∧
     solA.isExpired demoCache.ttl 10 = false ∧
     SolutionCache.get demoCache "https://a.com" none 10 =
       (some solA,
        { demoCache with
            cache := eraseKey demoCache.cache
                (SolutionCache.makeKey "https://a.com" none) ++
              [(SolutionCache.makeKey "https://a.com" none, solA)],
            hits := demoCache.hits + 1 })) ∧
    (SolutionCache.set demoCache "https://c.com" solC none = some demoAfterSetC ∧
     (10 : Int) - solC.created_at ≤ demoCache.ttl ∧
     SolutionCache.get demoAfterSetC "https://c.com" none 10 =
       (some { solC with url := "https://c.com" },
        { demoAfterSetC with hits := demoAfterSetC.hits + 1 })) :=
  ⟨⟨by decide, C7_theorem.2.1 demoCache "https://z.com" none 10 (by decide)⟩,
   ⟨by decide, by decide,
    C7_theorem.2.2.1 demoCache "https://a.com" none 5000 solA (by decide) (by decide)⟩,
   ⟨by decide, by decide,
    C7_theorem.2.2.2.1 demoCache "https://a.com" none 10 solA (by decide) (by decide)⟩,
   ⟨by decide, by decide,
    C7_theorem.2.2.2.2 demoCache "https://c.com" solC none 10 demoAfterSetC
      (by decide) (by decide)⟩⟩

/-! ## Claim C8: the pool capacity invariant -/

def overlapPool : BrowserPool :=
  { available := [BrowserPool.createPage 0 none], creating := 1,
    poolSize := 2, shutdownFlag := false }

/-- C8, counterexample.  `warmup` checks only `len(available) < pool_size`
and ignores the in-flight `creating` count, so from a state satisfying
`available + creating ≤ pool_size` (one idle handle, one in-flight
creation, capacity two) a warmup iteration appends a second idle handle
and leaves `available + creating = 3 > 2` — outside any
synchronous-fallback window. -/
theorem C8_counterexample :
    BrowserPool.invariant overlapPool ∧
    ¬ BrowserPool.invariant (BrowserPool.warmupStep overlapPool 1) := by
  constructor
  · decide
  · decide

/-- C8, amended: `_async_replenish`, `_replenish_one` (both outcomes, run
with at least one creation in flight), `acquire`'s immediate-pop path and
`discard` all preserve `len(available) + creating ≤ pool_size`, and
`_async_replenish` starts no new creation when `available + creating`
already reaches `pool_size`; `warmup`, however, preserves the invariant
only when no creation is in flight (it checks `available` alone). -/
theorem C8_theorem :
    (∀ st : BrowserPool, st.poolSize ≤ st.available.length + st.creating →
       BrowserPool.asyncReplenish st = st) ∧
    (∀ st : BrowserPool, BrowserPool.invariant st →
       BrowserPool.invariant (BrowserPool.asyncReplenish st)) ∧
    (∀ (st : BrowserPool) (n : Nat), 1 ≤ st.creating → BrowserPool.invariant st →
       BrowserPool.invariant (BrowserPool.replenishOneOk st n)) ∧
    (∀ st : BrowserPool, BrowserPool.invariant st →
       BrowserPool.invariant (BrowserPool.replenishOneFail st)) ∧
    (∀ st : BrowserPool, BrowserPool.invariant st →
       BrowserPool.invariant (BrowserPool.discard st)) ∧
    (∀ (st : BrowserPool) (h : PHandle) (t : List PHandle),
       st.available = h :: t → BrowserPool.invariant st →
       BrowserPool.invariant (BrowserPool.asyncReplenish { st with available := t })) ∧
    (∀ (st : BrowserPool) (n : Nat), st.creating = 0 → BrowserPool.invariant st →
       BrowserPool.invariant (BrowserPool.warmupStep st n)) := by
  refine ⟨?_, ?_, ?_, ?_, ?_, ?_, ?_⟩
  · intro st h
    unfold BrowserPool.asyncReplenish
    rw [if_pos h]
  · intro st hinv
    unfold BrowserPool.invariant BrowserPool.asyncReplenish at *
    by_cases h : st.poolSize ≤ st.available.length + st.creating
    · rw [if_pos h]; exact hinv
    · rw [if_neg h]; simp only []; omega
  · intro st n hc hinv
    unfold BrowserPool.invariant BrowserPool.replenishOneOk at *
    by_cases h : st.available.length < st.poolSize && !st.shutdownFlag
    · rw [if_pos h]
      simp only [List.length_append, List.length_cons, List.length_nil]
      omega
    · rw [if_neg h]; simp only []; omega
  · intro st hinv
    unfold BrowserPool.invariant BrowserPool.replenishOneFail at *
    simp only []; omega
  · intro st hinv
    unfold BrowserPool.invariant BrowserPool.discard BrowserPool.asyncReplenish at *
    by_cases h : st.poolSize ≤ st.available.length + st.creating
    · rw [if_pos h]; exact hinv
    · rw [if_neg h]; simp only []; omega
  · intro st h t heq hinv
    unfold BrowserPool.invariant BrowserPool.asyncReplenish at *
    rw [heq] at hinv
    simp only [List.length_cons] at hinv
    by_cases hc : st.poolSize ≤ t.length + st.creating
    · rw [if_pos hc]; simp only []; omega
    · rw [if_neg hc]; simp only []; omega
  · intro st n hc hinv
    unfold BrowserPool.invariant BrowserPool.warmupStep at *
    by_cases h : st.available.length < st.poolSize
    · rw [if_pos h]
      simp only [List.length_append, List.length_cons, List.length_nil]
      omega
    · rw [if_neg h]; exact hinv

def freshPool : BrowserPool :=
  { available := [], creating := 1, poolSize := 2, shutdownFlag := false }

/-- C8, witness at a capacity-2 pool with one creation in flight (and, for
the warmup clause, none in flight). -/
theorem C8_witness :
    (freshPool.poolSize ≤ freshPool.available.length + freshPool.creating + 1 ∧
     BrowserPool.invariant freshPool) ∧
    BrowserPool.invariant (BrowserPool.asyncReplenish freshPool) ∧
    (1 ≤ freshPool.creating ∧
     BrowserPool.invariant (BrowserPool.replenishOneOk freshPool 3)) ∧
    BrowserPool.invariant (BrowserPool.replenishOneFail freshPool) ∧
    BrowserPool.invariant (BrowserPool.discard freshPool) ∧
    (overlapPool.available = [BrowserPool.createPage 0 none] ∧
     BrowserPool.invariant (BrowserPool.asyncReplenish { overlapPool with available := [] })) ∧
    (({ freshPool with creating := 0 } : BrowserPool).creating = 0 ∧
     BrowserPool.invariant (BrowserPool.warmupStep { freshPool with creating := 0 } 4)) :=
  ⟨⟨by decide, by decide⟩,
   C8_theorem.2.1 freshPool (by decide),
   ⟨by decide, C8_theorem.2.2.1 freshPool 3 (by decide) (by decide)⟩,
   C8_theorem.2.2.2.1 freshPool (by decide),
   C8_theorem.2.2.2.2.1 freshPool (by decide),
   ⟨by decide, C8_theorem.2.2.2.2.2.1 overlapPool (BrowserPool.createPage 0 none) []
      (by decide) (by decide)⟩,
   ⟨by decide, C8_theorem.2.2.2.2.2.2 { freshPool with creating := 0 } 4
      (by decide) (by decide)⟩⟩

/-! ## Claim C9: acquire never blocks past the timeout -/

theorem acquireLoop_creates (env : AcquireEnv) (timeout : Nat) :
    ∀ (fuel i n : Nat), i ≤ n → n - i < fuel →
    (∀ j, i ≤ j → j ≤ n → env.avail j = [] ∧ env.stopAt j = false) →
    timeout ≤ env.elapsed n →
    BrowserPool.acquireLoop env timeout fuel i = .created env.fallback := by
  intro fuel
  induction fuel with
  | zero => intro i n hin hfuel _ _; omega
  | succ f ih =>
      intro i n hin hfuel hempty htime
      have he := hempty i (Nat.le_refl i) hin
      unfold BrowserPool.acquireLoop
      rw [he.1, he.2]
      by_cases ht : timeout ≤ env.elapsed i
      · simp [ht]
      · have hne : i ≠ n := by
          intro hcontra
          subst hcontra
          exact ht htime
        simp only [Bool.false_eq_true, if_false, ht]
        exact ih (i + 1) n (by omega) (by omega)
          (fun j hj1 hj2 => hempty j (by omega) hj2) htime

/-- C9: if `available` is non-empty, `acquire` pops the front handle and
returns it immediately, triggering an asynchronous replenishment; if
`available` stays empty (and the pool is not shut down) until the elapsed
time reaches the timeout, `acquire` stops waiting and falls back to a
synchronous creation outside the pool, returning that creation's handle
or its failure (`None`) — never blocking past the timeout solely because
the pool is exhausted. -/
theorem C9_theorem :
    (∀ (st : BrowserPool) (timeout : Nat) (env : AcquireEnv) (fuel : Nat)
       (h : PHandle) (t : List PHandle), st.available = h :: t →
       BrowserPool.acquire st timeout env fuel =
         (.fromPool h, BrowserPool.asyncReplenish { st with available := t })) ∧
    (∀ (st : BrowserPool) (timeout : Nat) (env : AcquireEnv) (fuel n : Nat),
       st.available = [] → n < fuel →
       (∀ j, j ≤ n → env.avail j = [] ∧ env.stopAt j = false) →
       timeout ≤ env.elapsed n →
       (BrowserPool.acquire st timeout env fuel).1 = .created env.fallback) := by
  constructor
  · intro st timeout env fuel h t heq
    obtain ⟨av, cr, ps, sf⟩ := st
    simp only at heq
    subst heq
    rfl
  · intro st timeout env fuel n heq hfuel hempty htime
    obtain ⟨av, cr, ps, sf⟩ := st
    simp only at heq
    subst heq
    show (BrowserPool.acquireLoop env timeout fuel 0) = .created env.fallback
    exact acquireLoop_creates env timeout fuel 0 n (Nat.zero_le n) (by omega)
      (fun j _ hj2 => hempty j hj2) htime

def emptyEnv : AcquireEnv :=
  { avail := fun _ => [], stopAt := fun _ => false,
    elapsed := fun i => i, createId := some 9 }

def handleOne : PHandle := ⟨1, none⟩

def readyPool : BrowserPool :=
  { available := [handleOne], creating := 0, poolSize := 2, shutdownFlag := false }

def emptyPool : BrowserPool :=
  { available := [], creating := 0, poolSize := 2, shutdownFlag := false }

/-- C9, witness: a pool with one idle handle serves it immediately; an
exhausted pool whose queue stays empty for the whole 3-second timeout
falls back to the synchronous creation. -/
theorem C9_witness :
    (readyPool.available = [handleOne] ∧
     BrowserPool.acquire readyPool 30 emptyEnv 5 =
       (.fromPool handleOne,
        BrowserPool.asyncReplenish { readyPool with available := [] })) ∧
    (emptyPool.available = [] ∧ (3 : Nat) < 5 ∧
     (∀ j, j ≤ 3 → emptyEnv.avail j = [] ∧ emptyEnv.stopAt j = false) ∧
     (3 : Nat) ≤ emptyEnv.elapsed 3 ∧
     (BrowserPool.acquire emptyPool 3 emptyEnv 5).1 = .created emptyEnv.fallback) :=
  ⟨⟨rfl, C9_theorem.1 readyPool 30 emptyEnv 5 handleOne [] rfl⟩,
   ⟨rfl, by decide, by decide, by decide,
    C9_theorem.2 emptyPool 3 emptyEnv 5 3 rfl (by decide) (by decide) (by decide)⟩⟩

/-! ## Claim C2: channels of the handles solve uses -/

def proxiedSolver : CloudflareSolver :=
  { proxy := some "198.51.100.7:8080", headless := true, timeout := 60,
    useCache := true, usePool := true }

def pooledDirect : PHandle := BrowserPool.createPage 0 none

def demoDirectPool : BrowserPool :=
  { available := [pooledDirect], creating := 0, poolSize := 2, shutdownFlag := false }

/-- C2, counterexample.  Pool replenishment always creates browsers with
no proxy, and `solve` takes whatever `pool.acquire()` hands back, so an
attempt with a non-empty channel and the pool enabled runs on a handle
whose channel is `none`, not the requested one. -/
theorem C2_counterexample :
    (BrowserPool.acquire demoDirectPool 30 emptyEnv 5).1 = .fromPool pooledDirect ∧
    CloudflareSolver.attemptHandle proxiedSolver true (some pooledDirect) 7 =
      pooledDirect ∧
    pooledDirect.channel = none ∧
    proxiedSolver.proxy = some "198.51.100.7:8080" ∧
    pooledDirect.channel ≠ proxiedSolver.proxy :=
  ⟨rfl, rfl, rfl, rfl, by decide⟩

/-- C2, amended: every handle the pool ever holds or hands out carries the
direct (no) channel — replenishment and warmup create browsers without a
proxy, and neither `discard` nor `_async_replenish` ever returns a used
handle to `available`, so per-request-channel handles are never pooled;
a `solve` attempt applies the requested channel only when it creates the
page ad hoc (pool absent, disabled, or `acquire` returned `None`), while
with the pool enabled and a pooled handle available the attempt runs on
that direct-channel handle even when its own channel differs. -/
theorem C2_theorem :
    (∀ (st : BrowserPool) (n : Nat), poolChannelsDirect st →
       poolChannelsDirect (BrowserPool.replenishOneOk st n)) ∧
    (∀ (st : BrowserPool) (n : Nat), poolChannelsDirect st →
       poolChannelsDirect (BrowserPool.warmupStep st n)) ∧
    (∀ (st : BrowserPool) (h : PHandle) (t : List PHandle),
       poolChannelsDirect st → st.available = h :: t → h.channel = none) ∧
    (∀ st : BrowserPool, (BrowserPool.discard st).available = st.available) ∧
    (∀ st : BrowserPool, (BrowserPool.asyncReplenish st).available = st.available) ∧
    (∀ (cfg : CloudflareSolver) (poolPresent : Bool) (n : Nat),
       CloudflareSolver.attemptHandle cfg poolPresent none n = cfg.createPage n) ∧
    (∀ (cfg : CloudflareSolver) (poolPresent : Bool) (acq : Option PHandle) (n : Nat),
       cfg.usePool = false →
       CloudflareSolver.attemptHandle cfg poolPresent acq n = cfg.createPage n) ∧
    (∀ (cfg : CloudflareSolver) (h : PHandle) (n : Nat),
       cfg.usePool = true →
       CloudflareSolver.attemptHandle cfg true (some h) n = h) := by
  refine ⟨?_, ?_, ?_, ?_, ?_, ?_, ?_, ?_⟩
  · intro st n hd
    unfold poolChannelsDirect BrowserPool.replenishOneOk at *
    by_cases hb : st.available.length < st.poolSize && !st.shutdownFlag
    · rw [if_pos hb]
      intro h hmem
      simp only [List.mem_append, List.mem_singleton] at hmem
      cases hmem with
      | inl hm => exact hd h hm
      | inr hm => subst hm; rfl
    · rw [if_neg hb]
      exact hd
  · intro st n hd
    unfold poolChannelsDirect BrowserPool.warmupStep at *
    by_cases hb : st.available.length < st.poolSize
    · rw [if_pos hb]
      intro h hmem
      simp only [List.mem_append, List.mem_singleton] at hmem
      cases hmem with
      | inl hm => exact hd h hm
      | inr hm => subst hm; rfl
    · rw [if_neg hb]
      exact hd
  · intro st h t hd heq
    exact hd h (by rw [heq]; exact List.mem_cons_self h t)
  · intro st
    unfold BrowserPool.discard BrowserPool.asyncReplenish
    by_cases hb : st.poolSize ≤ st.available.length + st.creating
    · rw [if_pos hb]
    · rw [if_neg hb]
  · intro st
    unfold BrowserPool.asyncReplenish
    by_cases hb : st.poolSize ≤ st.available.length + st.creating
    · rw [if_pos hb]
    · rw [if_neg hb]
  · intro cfg poolPresent n
    unfold CloudflareSolver.attemptHandle
    by_cases hb : cfg.usePool && poolPresent
    · rw [if_pos hb]
    · rw [if_neg hb]
  · intro cfg poolPresent acq n hfalse
    unfold CloudflareSolver.attemptHandle
    rw [hfalse]
    simp
  · intro cfg h n htrue
    unfold CloudflareSolver.attemptHandle
    rw [htrue]
    simp

def noPoolSolver : CloudflareSolver :=
  { proxiedSolver with usePool := false }

/-- C2, witness for the amended theorem, exercising the pool-invariant
clauses on a concrete direct-channel pool and the solver's ad hoc paths
on a proxied configuration. -/
theorem C2_witness :
    (poolChannelsDirect demoDirectPool ∧
     poolChannelsDirect (BrowserPool.replenishOneOk demoDirectPool 3)) ∧
    poolChannelsDirect (BrowserPool.warmupStep demoDirectPool 4) ∧
    (demoDirectPool.available = [pooledDirect] ∧ pooledDirect.channel = none) ∧
    CloudflareSolver.attemptHandle proxiedSolver true none 7 =
      proxiedSolver.createPage 7 ∧
    (noPoolSolver.usePool = false ∧
     CloudflareSolver.attemptHandle noPoolSolver true (some pooledDirect) 7 =
       noPoolSolver.createPage 7) ∧
    (proxiedSolver.usePool = true ∧
     CloudflareSolver.attemptHandle proxiedSolver true (some pooledDirect) 7 =
       pooledDirect) :=
  ⟨⟨by decide, C2_theorem.1 demoDirectPool 3 (by decide)⟩,
   C2_theorem.2.1 demoDirectPool 4 (by decide),
   ⟨rfl, C2_theorem.2.2.1 demoDirectPool pooledDirect [] (by decide) rfl⟩,
   C2_theorem.2.2.2.2.2.1 proxiedSolver true 7,
   ⟨rfl, C2_theorem.2.2.2.2.2.2.1 noPoolSolver true (some pooledDirect) 7 rfl⟩,
   ⟨rfl, C2_theorem.2.2.2.2.2.2.2 proxiedSolver pooledDirect 7 rfl⟩⟩

/-! ## Claims C1 and C5: the clearance waiter -/

theorem checkClearance_timeout_aux (trace : Nat → PageObs) (w n : Nat)
    (hempty : ∀ j, j ≤ n → tickNoSignal (trace j))
    (hend : w ≤ (trace n).t) :
    ∀ (fuel i : Nat), i ≤ n → n - i < fuel →
    checkClearanceGo trace w fuel i = .timedOut := by
  intro fuel
  induction fuel with
  | zero => intro i hin hf; omega
  | succ f ih =>
      intro i hin hf
      unfold checkClearanceGo
      by_cases hw : w ≤ (trace i).t
      · rw [if_pos hw]
      · have hne : i ≠ n := fun hc => hw (hc ▸ hend)
        have hi : i < n := Nat.lt_of_le_of_ne hin hne
        have hts := hempty i (Nat.le_of_lt hi)
        rw [if_neg hw]
        by_cases hct : (trace i).cookiesThrow
        · simp only [hct, if_true]
          exact ih (i + 1) (by omega) (by omega)
        · have hctf : (trace i).cookiesThrow = false := by simpa using hct
          have hfc : findClearance (trace i).cookies = none := by
            cases hts with
            | inl h => rw [h] at hctf; cases hctf
            | inr h2 => exact h2.1
          have h3 : (trace i).stateThrow = true ∨ isManualChallenge (trace i) = false := by
            cases hts with
            | inl h => rw [h] at hctf; cases hctf
            | inr h2 => exact h2.2
          simp only [hctf, Bool.false_eq_true, if_false, hfc]
          by_cases hst : (trace i).stateThrow
          · simp only [hst, if_true]
            exact ih (i + 1) (by omega) (by omega)
          · have hstf : (trace i).stateThrow = false := by simpa using hst
            have hmc : isManualChallenge (trace i) = false := by
              cases h3 with
              | inl h => rw [h] at hstf; cases hstf
              | inr h => exact h
            simp only [hstf, Bool.false_eq_true, if_false, hmc]
            exact ih (i + 1) (by omega) (by omega)

theorem checkClearance_timedOut_reaches (trace : Nat → PageObs) (w : Nat) :
    ∀ fuel i, checkClearanceGo trace w fuel i = .timedOut →
    ∃ j, i ≤ j ∧ w ≤ (trace j).t := by
  intro fuel
  induction fuel with
  | zero => intro i h; exact ClearanceExit.noConfusion h
  | succ f ih =>
      intro i h
      unfold checkClearanceGo at h
      by_cases hw : w ≤ (trace i).t
      · exact ⟨i, Nat.le_refl i, hw⟩
      · rw [if_neg hw] at h
        by_cases hct : (trace i).cookiesThrow
        · simp only [hct, if_true] at h
          obtain ⟨j, hj1, hj2⟩ := ih (i + 1) h
          exact ⟨j, by omega, hj2⟩
        · have hctf : (trace i).cookiesThrow = false := by simpa using hct
          simp only [hctf, Bool.false_eq_true, if_false] at h
          cases hfc : findClearance (trace i).cookies with
          | some v => simp only [hfc] at h; exact ClearanceExit.noConfusion h
          | none =>
              simp only [hfc] at h
              by_cases hst : (trace i).stateThrow
              · simp only [hst, if_true] at h
                obtain ⟨j, hj1, hj2⟩ := ih (i + 1) h
                exact ⟨j, by omega, hj2⟩
              · have hstf : (trace i).stateThrow = false := by simpa using hst
                simp only [hstf, Bool.false_eq_true, if_false] at h
                by_cases hmc : isManualChallenge (trace i)
                · simp only [hmc, if_true] at h
                  exact ClearanceExit.noConfusion h
                · have hmcf : isManualChallenge (trace i) = false := by simpa using hmc
                  simp only [hmcf, Bool.false_eq_true, if_false] at h
                  obtain ⟨j, hj1, hj2⟩ := ih (i + 1) h
                  exact ⟨j, by omega, hj2⟩

def demoSolver : CloudflareSolver :=
  { proxy := none, headless := true, timeout := 60, useCache := true,
    usePool := true }

def cookieAt30Trace : Nat → PageObs := fun i =>
  { cookies := if 30 ≤ i then [("cf_clearance", "tok123")] else [],
    cookiesLate := [], title := "example", url := "https://example.com",
    html := "ok", t := i, cookiesThrow := false, stateThrow := false }

/-- C1, counterexample.  `solve` calls `self._check_clearance(page)` with
the default `wait_time = 8`, not the solver's configured timeout: on a
page whose clearance cookie arrives at 30 s, the waiter as driven by a
solver configured with `timeout = 60` gives up with no token at 8 s of
elapsed time — although 8 s does not exceed the 60 s deadline, under
which the cookie would have been found. -/
theorem C1_counterexample :
    CloudflareSolver.attemptClearance demoSolver cookieAt30Trace 100 = none ∧
    checkClearance cookieAt30Trace demoSolver.timeout 100 = some "tok123" ∧
    demoSolver.timeout = 60 ∧
    CloudflareSolver.solveWait demoSolver = 8 :=
  ⟨rfl, rfl, rfl, rfl⟩

/-- C1, amended: the waiter transitions to timed-out, returning no token,
exactly when the elapsed time reaches its `wait_time` parameter — which,
as `solve` invokes it, is the fixed default of 8 seconds irrespective of
the timeout configured on the solver: when no tick up to the first one at
or past the deadline observes the success cookie or a manual-challenge
signal, the run ends timed-out with no token; conversely a timed-out exit
is only ever reached at a tick whose elapsed time is at least
`wait_time`. -/
theorem C1_theorem :
    (∀ cfg : CloudflareSolver, CloudflareSolver.solveWait cfg = 8) ∧
    (∀ (trace : Nat → PageObs) (w n fuel : Nat),
       (∀ j, j ≤ n → tickNoSignal (trace j)) →
       w ≤ (trace n).t → n < fuel →
       checkClearanceGo trace w fuel 0 = ClearanceExit.timedOut ∧
       checkClearance trace w fuel = none) ∧
    (∀ (trace : Nat → PageObs) (w fuel i : Nat),
       checkClearanceGo trace w fuel i = ClearanceExit.timedOut →
       ∃ j, i ≤ j ∧ w ≤ (trace j).t) := by
  refine ⟨fun cfg => rfl, ?_, ?_⟩
  · intro trace w n fuel hempty hend hfuel
    have hgo : checkClearanceGo trace w fuel 0 = .timedOut :=
      checkClearance_timeout_aux trace w n hempty hend fuel 0 (Nat.zero_le n) (by omega)
    refine ⟨hgo, ?_⟩
    unfold checkClearance
    rw [hgo]
  · intro trace w fuel i h
    exact checkClearance_timedOut_reaches trace w fuel i h

def quietTrace : Nat → PageObs := fun i =>
  { cookies := [], cookiesLate := [], title := "example",
    url := "https://example.com", html := "ok", t := i,
    cookiesThrow := false, stateThrow := false }

/-- C1, witness: a page that never yields a cookie nor challenge markers;
with the wait the code uses (8 s) the waiter times out at the tick whose
elapsed time reaches 8. -/
theorem C1_witness :
    (∀ j, j ≤ 8 → tickNoSignal (quietTrace j)) ∧
    (8 : Nat) ≤ (quietTrace 8).t ∧
    (8 : Nat) < 20 ∧
    (checkClearanceGo quietTrace 8 20 0 = ClearanceExit.timedOut ∧
     checkClearance quietTrace 8 20 = none) ∧
    CloudflareSolver.solveWait demoSolver = 8 ∧
    (∃ j, 0 ≤ j ∧ 8 ≤ (quietTrace j).t) :=
  ⟨by decide, by decide, by decide,
   C1_theorem.2.1 quietTrace 8 8 20 (by decide) (by decide) (by decide),
   C1_theorem.1 demoSolver,
   C1_theorem.2.2 quietTrace 8 20 0 (by decide)⟩

theorem eraseLate_t (ob : PageObs) : ob.eraseLate.t = ob.t := rfl

theorem eraseLate_cookies (ob : PageObs) : ob.eraseLate.cookies = ob.cookies := rfl

theorem eraseLate_cookiesThrow (ob : PageObs) :
    ob.eraseLate.cookiesThrow = ob.cookiesThrow := rfl

theorem eraseLate_stateThrow (ob : PageObs) :
    ob.eraseLate.stateThrow = ob.stateThrow := rfl

theorem isManualChallenge_eraseLate (ob : PageObs) :
    isManualChallenge ob.eraseLate = isManualChallenge ob := rfl

theorem checkClearanceGo_eraseLate (trace : Nat → PageObs) (w : Nat) :
    ∀ fuel i, checkClearanceGo (fun j => (trace j).eraseLate) w fuel i =
      checkClearanceGo trace w fuel i := by
  intro fuel
  induction fuel with
  | zero => intro i; rfl
  | succ f ih =>
      intro i
      unfold checkClearanceGo
      simp only [eraseLate_t, eraseLate_cookies, eraseLate_cookiesThrow,
                 eraseLate_stateThrow, isManualChallenge_eraseLate]
      by_cases hw : w ≤ (trace i).t
      · simp [hw]
      · simp only [if_neg hw]
        by_cases hct : (trace i).cookiesThrow
        · simp [hct, ih]
        · have hctf : (trace i).cookiesThrow = false := by simpa using hct
          simp only [hctf, Bool.false_eq_true, if_false]
          cases hfc : findClearance (trace i).cookies with
          | some v => simp [hfc]
          | none =>
              simp only [hfc]
              by_cases hst : (trace i).stateThrow
              · simp [hst, ih]
              · have hstf : (trace i).stateThrow = false := by simpa using hst
                simp only [hstf, Bool.false_eq_true, if_false]
                by_cases hmc : isManualChallenge (trace i)
                · simp [hmc]
                · have hmcf : isManualChallenge (trace i) = false := by simpa using hmc
                  simp [hmcf, ih]

def lateCookieTrace : Nat → PageObs := fun i =>
  { cookies := [], cookiesLate := [("cf_clearance", "late-token")],
    title := "Just a moment...", url := "https://example.com",
    html := "<div>verify you are human</div>", t := i,
    cookiesThrow := false, stateThrow := false }

/-- C5, counterexample.  The code reads cookies once per tick, at the
start; when it then classifies the page as a manual challenge it returns
`None` immediately, with no second cookie read.  On a tick whose page
state shows challenge markers while the success cookie lands between the
start-of-tick cookie read and the classification (`cookiesLate`), the
waiter still fails the attempt instead of returning the token. -/
theorem C5_counterexample :
    checkClearanceGo lateCookieTrace 8 10 0 = ClearanceExit.manual ∧
    checkClearance lateCookieTrace 8 10 = none ∧
    findClearance ((lateCookieTrace 0).cookiesLate) = some "late-token" :=
  ⟨rfl, rfl, rfl⟩

/-- C5, amended: on every poll tick the waiter reads the cookie set
exactly once, at the start of the tick, and its entire run is insensitive
to the cookie set as it stands at classification time (`cookiesLate`);
when a tick within the deadline reads no success cookie and then
classifies the page as a manual challenge, the waiter declares
manual-challenge-detected at once, without re-checking cookies, so a
success cookie arriving between the page-state read and the
classification is not returned as success. -/
theorem C5_theorem :
    (∀ (trace : Nat → PageObs) (w fuel i : Nat),
       checkClearanceGo (fun j => (trace j).eraseLate) w fuel i =
         checkClearanceGo trace w fuel i) ∧
    (∀ (trace : Nat → PageObs) (w fuel : Nat),
       (trace 0).t < w → (trace 0).cookiesThrow = false →
       findClearance (trace 0).cookies = none → (trace 0).stateThrow = false →
       isManualChallenge (trace 0) = true →
       checkClearanceGo trace w (fuel + 1) 0 = ClearanceExit.manual ∧
       checkClearance trace w (fuel + 1) = none) := by
  constructor
  · intro trace w fuel i
    exact checkClearanceGo_eraseLate trace w fuel i
  · intro trace w fuel h1 h2 h3 h4 h5
    have hgo : checkClearanceGo trace w (fuel + 1) 0 = ClearanceExit.manual := by
      unfold checkClearanceGo
      rw [if_neg (by omega)]
      simp [h2, h3, h4, h5]
    refine ⟨hgo, ?_⟩
    unfold checkClearance
    rw [hgo]

/-- C5, witness for the amended theorem at a single-tick manual-challenge
page carrying a late cookie that the waiter never consults. -/
theorem C5_witness :
    checkClearanceGo (fun j => (lateCookieTrace j).eraseLate) 8 10 0 =
      checkClearanceGo lateCookieTrace 8 10 0 ∧
    ((lateCookieTrace 0).t < 8 ∧
     (lateCookieTrace 0).cookiesThrow = false ∧
     findClearance (lateCookieTrace 0).cookies = none ∧
     (lateCookieTrace 0).stateThrow = false ∧
     isManualChallenge (lateCookieTrace 0) = true) ∧
    (checkClearanceGo lateCookieTrace 8 (9 + 1) 0 = ClearanceExit.manual ∧
     checkClearance lateCookieTrace 8 (9 + 1) = none) :=
  ⟨C5_theorem.1 lateCookieTrace 8 10 0,
   ⟨by decide, rfl, rfl, rfl, by decide⟩,
   C5_theorem.2 lateCookieTrace 8 9 (by decide) rfl rfl rfl (by decide)⟩

/-! ## Claim C3: the retry loop acquires and discards once per attempt -/

theorem solveGo_counts (attempts : Nat → AttemptOut) (maxRetries : Nat) :
    ∀ (r idx : Nat) (le : Option String),
    (CloudflareSolver.solveGo attempts maxRetries r idx le).2.acquiredCount =
      (CloudflareSolver.solveGo attempts maxRetries r idx le).2.discardedCount := by
  intro r
  induction r with
  | zero => intro idx le; rfl
  | succ r' ih =>
      intro idx le
      unfold CloudflareSolver.solveGo
      cases ha : attempts idx with
      | cleared sol => rfl
      | noClearance =>
          dsimp only
          rw [ih]
      | engineError msg =>
          dsimp only
          rw [ih]

theorem solveGo_all_fail (attempts : Nat → AttemptOut) (maxRetries : Nat) :
    ∀ (r idx : Nat) (le : Option String),
    (∀ i, idx ≤ i → i ≤ idx + r → ∀ sol, attempts i ≠ .cleared sol) →
    CloudflareSolver.solveGo attempts maxRetries (r + 1) idx le =
      (.error (exhaustedMsg maxRetries (attemptMsg (attempts (idx + r)))),
       ⟨r + 1, r + 1⟩) := by
  intro r
  induction r with
  | zero =>
      intro idx le hfail
      unfold CloudflareSolver.solveGo
      cases ha : attempts idx with
      | cleared sol => exact absurd ha (hfail idx (Nat.le_refl idx) (by omega) sol)
      | noClearance =>
          simp only [Nat.add_zero, ha]
          rfl
      | engineError msg =>
          simp only [Nat.add_zero, ha]
          rfl
  | succ r' ih =>
      intro idx le hfail
      unfold CloudflareSolver.solveGo
      cases ha : attempts idx with
      | cleared sol => exact absurd ha (hfail idx (Nat.le_refl idx) (by omega) sol)
      | noClearance =>
          dsimp only
          rw [ih (idx + 1) (some challengeFailMsg)
            (fun i h1 h2 sol => hfail i (by omega) (by omega) sol)]
          have hidx : idx + 1 + r' = idx + (r' + 1) := by omega
          rw [hidx]
      | engineError msg =>
          dsimp only
          rw [ih (idx + 1) (some msg)
            (fun i h1 h2 sol => hfail i (by omega) (by omega) sol)]
          have hidx : idx + 1 + r' = idx + (r' + 1) := by omega
          rw [hidx]

/-- C3: with the cache skipped, when every attempt fails to obtain the
success cookie (no attempt yields a cleared solution), `solve` with
`max_retries = N` performs exactly N + 1 page acquisitions — one per
attempt — discards exactly as many pages as it acquires, and raises the
retries-exhausted `CloudflareError` wrapping the last observed failure;
on every path (cache hit, success, failure, engine error) the number of
pages discarded equals the number acquired. -/
theorem C3_theorem :
    (∀ (cfg : CloudflareSolver) (cacheHit : Option CloudflareSolution)
       (attempts : Nat → AttemptOut) (maxRetries : Nat),
       (∀ i, i ≤ maxRetries → ∀ sol, attempts i ≠ AttemptOut.cleared sol) →
       CloudflareSolver.solve cfg cacheHit true attempts maxRetries =
         (.error (exhaustedMsg maxRetries (attemptMsg (attempts maxRetries))),
          ⟨maxRetries + 1, maxRetries + 1⟩)) ∧
    (∀ (cfg : CloudflareSolver) (cacheHit : Option CloudflareSolution)
       (skipCache : Bool) (attempts : Nat → AttemptOut) (maxRetries : Nat),
       (CloudflareSolver.solve cfg cacheHit skipCache attempts
           maxRetries).2.acquiredCount =
         (CloudflareSolver.solve cfg cacheHit skipCache attempts
           maxRetries).2.discardedCount) := by
  constructor
  · intro cfg cacheHit attempts maxRetries hfail
    unfold CloudflareSolver.solve
    simp only [Bool.not_true, Bool.and_false, Bool.false_eq_true, if_false]
    have h := solveGo_all_fail attempts maxRetries maxRetries 0 none
      (fun i h1 h2 sol => hfail i (by omega) sol)
    simpa using h
  · intro cfg cacheHit skipCache attempts maxRetries
    unfold CloudflareSolver.solve
    by_cases hb : cfg.useCache && !skipCache
    · rw [if_pos hb]
      cases cacheHit with
      | some sol => rfl
      | none => exact solveGo_counts attempts maxRetries (maxRetries + 1) 0 none
    · rw [if_neg hb]
      exact solveGo_counts attempts maxRetries (maxRetries + 1) 0 none

/-- C3, witness: Scenario B — every attempt reports the manual challenge,
`max_retries = 2` gives exactly 3 acquisitions and 3 discards and the
wrapped retries-exhausted error. -/
theorem C3_witness :
    (∀ i, i ≤ 2 → ∀ sol,
       (fun _ => AttemptOut.noClearance) i ≠ AttemptOut.cleared sol) ∧
    CloudflareSolver.solve demoSolver none true (fun _ => AttemptOut.noClearance) 2 =
      (.error (exhaustedMsg 2 (attemptMsg AttemptOut.noClearance)), ⟨3, 3⟩) ∧
    (CloudflareSolver.solve demoSolver none true (fun _ => AttemptOut.noClearance)
        2).2.acquiredCount =
      (CloudflareSolver.solve demoSolver none true (fun _ => AttemptOut.noClearance)
        2).2.discardedCount :=
  ⟨fun i _ sol h => AttemptOut.noConfusion h,
   C3_theorem.1 demoSolver none (fun _ => AttemptOut.noClearance) 2
     (fun i _ sol h => AttemptOut.noConfusion h),
   C3_theorem.2 demoSolver none true (fun _ => AttemptOut.noClearance) 2⟩
